import Mathlib

/-
Verification development for the Walmart unit-economics calculator
(calc_engine.py / app.py).  The engine is a three-pass transformation over a
pandas DataFrame.  We embed it shallowly:

* a cell is a `Value` (numeric, string, or missing); numbers are exact
  rationals -- pandas floats are modelled by the real/rational value they
  denote, so algebraic identities are exact where the spec says
  "within floating tolerance";
* a DataFrame is a `Table`: a row count plus an ordered association list
  of named columns (pandas guarantees every column has the same length,
  captured by the `WF` predicate);
* column assignment `df[c] = ...` is `Table.setCol` (replace-in-place or
  append, like pandas);
* `pd.to_numeric(col, errors='coerce').fillna(default)` is modelled by
  `Value.toQ`: a numeric cell keeps its value (this includes numeric-looking
  strings, which to_numeric parses), any non-numeric or missing cell
  becomes the default 0.
-/

namespace WCalc

/-- A DataFrame cell: a numeric value, a non-numeric string, or missing (NaN). -/
inductive Value where
  | num (q : ℚ)
  | str (s : String)
  | na
  | bool (b : Bool)
deriving DecidableEq, Repr

/-- Numeric view of a cell, as used after pd.to_numeric(...).fillna(0.0):
numbers pass through, booleans become 0/1, everything non-numeric or missing
coerces to 0. -/
def Value.toQ : Value → ℚ
  | .num q => q
  | .str _ => 0
  | .na => 0
  | .bool b => if b then 1 else 0

/-- A DataFrame: a fixed row count and an ordered list of named columns. -/
structure Table where
  nrows : Nat
  cols : List (String × List Value)
deriving DecidableEq, Repr

/-- Look up a column by name (first match wins, like a pandas column). -/
def findCol : List (String × List Value) → String → Option (List Value)
  | [], _ => none
  | (c', vs) :: t, c => if c' = c then some vs else findCol t c

/-- Column read df[c].  A missing column reads as all-NaN of the right length
(the engine only reads columns it has guaranteed to exist; the default keeps
the model total). -/
def Table.getCol (df : Table) (c : String) : List Value :=
  (findCol df.cols c).getD (List.replicate df.nrows Value.na)

/-- The column names of the table, in order (df.columns). -/
def Table.names (df : Table) : List String :=
  df.cols.map Prod.fst

/-- Replace the first column named c, or append a new one. -/
def setPairs : List (String × List Value) → String → List Value → List (String × List Value)
  | [], c, vs => [(c, vs)]
  | (c', vs') :: t, c, vs => if c' = c then (c, vs) :: t else (c', vs') :: setPairs t c vs

/-- Column write df[c] = vs. -/
def Table.setCol (df : Table) (c : String) (vs : List Value) : Table :=
  ⟨df.nrows, setPairs df.cols c vs⟩

/-- Column write with rational values. -/
def Table.setColQ (df : Table) (c : String) (qs : List ℚ) : Table :=
  df.setCol c (qs.map Value.num)

/-- Numeric view of a column (each cell through Value.toQ). -/
def Table.numCol (df : Table) (c : String) : List ℚ :=
  (df.getCol c).map Value.toQ

/-- Scalar broadcast write df[c] = v (pandas broadcasts a scalar over all rows). -/
def Table.setScalar (df : Table) (c : String) (v : Value) : Table :=
  df.setCol c (List.replicate df.nrows v)

/-- Well-formedness: every column has exactly nrows cells (always true of a
real pandas DataFrame). -/
def WF (df : Table) : Prop :=
  ∀ p ∈ df.cols, p.2.length = df.nrows

instance (df : Table) : Decidable (WF df) := by
  unfold WF; infer_instance

/-- The column mapping handed to the engine by the mapping tab: each canonical
field carries the chosen source column name, or none (the app stores None for
an unselected field; it requires all but duty_rate to be selected before the
engine runs). -/
structure Mappings where
  sku : Option String
  qty : Option String
  unit_cost : Option String
  length : Option String
  width : Option String
  height : Option String
  weight : Option String
  selling_price : Option String
  duty_rate : Option String
deriving DecidableEq, Repr

/-- The assumptions record collected by the app (tab 3).  The app supplies
every key, so the engine's .get defaults never fire; fields are the values
the engine reads. -/
structure Assumptions where
  uom_dim : String
  uom_weight : String
  fx_rate : ℚ
  freight_total_spend : ℚ
  allocation_method : String
  mpf_rate : ℚ
  mpf_min : ℚ
  mpf_max : ℚ
  hmf_rate : ℚ
  brokerage_fee : ℚ
  default_referral_pct : ℚ
  wfs_storage_rate : ℚ
  wfs_base_fee : ℚ
  wfs_base_weight_lb : ℚ
  wfs_excess_per_lb : ℚ
  dim_divisor : ℚ
  ads_pct_sales : ℚ
  returns_pct_sales : ℚ
deriving Repr

/-- Insert into a Python dict literal under construction: a repeated key
overwrites the value in place (keeping the first-insertion position), a new
key is appended. -/
def dinsert : List (Option String × String) → Option String → String →
    List (Option String × String)
  | [], k, v => [(k, v)]
  | (k', v') :: t, k, v => if k' = k then (k, v) :: t else (k', v') :: dinsert t k v

/-- The target_cols dict of run_conversions (lines 28-38): keys are the mapped
source names (self.map.get(...)), values the canonical internal names.
Duplicate mapped sources collapse exactly as a Python dict literal does. -/
def targetCols (m : Mappings) : List (Option String × String) :=
  dinsert (dinsert (dinsert (dinsert (dinsert (dinsert (dinsert (dinsert (dinsert
    [] m.sku "sku") m.qty "qty") m.unit_cost "unit_cost") m.length "length")
    m.width "width") m.height "height") m.weight "weight")
    m.selling_price "selling_price") m.duty_rate "duty_rate_pct"

/-- Default fill for a canonical column whose source is absent (lines 44-49):
sku gets the placeholder string, every other canonical column gets 0.0. -/
def defaultFill (df : Table) (internal : String) : Table :=
  if internal = "sku" then df.setScalar "sku" (Value.str "Unknown-SKU")
  else df.setColQ internal (List.replicate df.nrows 0)

/-- One iteration of the mapping loop (lines 41-49).  Python truthiness:
a None key or an empty-string key falls through to the default fill. -/
def mapLoopStep (df : Table) (kv : Option String × String) : Table :=
  match kv.1 with
  | some s =>
      if s ≠ "" ∧ s ∈ df.names then df.setCol kv.2 (df.getCol s)
      else defaultFill df kv.2
  | none => defaultFill df kv.2

/-- The whole mapping loop over target_cols.items(). -/
def mapLoop (df : Table) (m : Mappings) : Table :=
  (targetCols m).foldl mapLoopStep df

/-- _safe_numeric(col) (lines 19-23): create the column at 0.0 if absent, then
coerce every cell to numeric with parse failures and NaN becoming 0.0. -/
def safeNumeric (df : Table) (c : String) : Table :=
  let df' := if c ∈ df.names then df else df.setColQ c (List.replicate df.nrows 0)
  df'.setColQ c (df'.numCol c)

/-- The canonical numeric columns enforced at lines 52-53. -/
def numericCanon : List String :=
  ["qty", "unit_cost", "length", "width", "height", "weight", "selling_price",
   "duty_rate_pct"]

/-- Enforce-numeric loop (lines 51-53). -/
def enforceNumeric (df : Table) : Table :=
  numericCanon.foldl safeNumeric df

/-- Dimensional conversions (lines 55-71): inches pass through and
meters = inches * 0.0254 when uom_dim is 'in'; otherwise (cm default)
meters = cm / 100 and inches = cm / 2.54. -/
def dimConvert (df : Table) (a : Assumptions) : Table :=
  if a.uom_dim = "in" then
    let df := df.setColQ "len_m" ((df.numCol "length").map (· * 0.0254))
    let df := df.setColQ "wid_m" ((df.numCol "width").map (· * 0.0254))
    let df := df.setColQ "hgt_m" ((df.numCol "height").map (· * 0.0254))
    let df := df.setColQ "len_in" (df.numCol "length")
    let df := df.setColQ "wid_in" (df.numCol "width")
    df.setColQ "hgt_in" (df.numCol "height")
  else
    let df := df.setColQ "len_m" ((df.numCol "length").map (· / 100))
    let df := df.setColQ "wid_m" ((df.numCol "width").map (· / 100))
    let df := df.setColQ "hgt_m" ((df.numCol "height").map (· / 100))
    let df := df.setColQ "len_in" ((df.numCol "length").map (· / 2.54))
    let df := df.setColQ "wid_in" ((df.numCol "width").map (· / 2.54))
    df.setColQ "hgt_in" ((df.numCol "height").map (· / 2.54))

/-- Weight conversions (lines 73-81). -/
def weightConvert (df : Table) (a : Assumptions) : Table :=
  if a.uom_weight = "lb" then
    let df := df.setColQ "weight_kg" ((df.numCol "weight").map (· * 0.453592))
    df.setColQ "weight_lb" (df.numCol "weight")
  else
    let df := df.setColQ "weight_kg" (df.numCol "weight")
    df.setColQ "weight_lb" ((df.numCol "weight").map (· * 2.20462))

/-- Volume metrics, dimensional weight and billable weight (lines 83-92). -/
def volumeMetrics (df : Table) (a : Assumptions) : Table :=
  let df := df.setColQ "unit_cbm"
    (List.zipWith (· * ·) (List.zipWith (· * ·) (df.numCol "len_m") (df.numCol "wid_m"))
      (df.numCol "hgt_m"))
  let df := df.setColQ "unit_cuft" ((df.numCol "unit_cbm").map (· * 35.3147))
  let df := df.setColQ "total_line_cbm"
    (List.zipWith (· * ·) (df.numCol "unit_cbm") (df.numCol "qty"))
  let df := df.setColQ "total_line_weight_kg"
    (List.zipWith (· * ·) (df.numCol "weight_kg") (df.numCol "qty"))
  let df := df.setColQ "dim_weight_lb"
    ((List.zipWith (· * ·) (List.zipWith (· * ·) (df.numCol "len_in") (df.numCol "wid_in"))
      (df.numCol "hgt_in")).map (· / a.dim_divisor))
  df.setColQ "billable_weight_lb"
    (List.zipWith max (df.numCol "weight_lb") (df.numCol "dim_weight_lb"))

/-- The unit/volume part of run_conversions after the mapping+coercion part. -/
def convSteps (df : Table) (a : Assumptions) : Table :=
  volumeMetrics (weightConvert (dimConvert df a) a) a

/-- run_conversions (lines 25-92). -/
def runConversions (df : Table) (m : Mappings) (a : Assumptions) : Table :=
  convSteps (enforceNumeric (mapLoop df m)) a

/-- calculate_landed_cost (lines 94-162), written in source order.  The
aggregate totals and the zero-aggregate 0 -> 1 fallbacks are lines 105-109
and 151; the MPF clamp is line 145. -/
def calculateLandedCost (df : Table) (a : Assumptions) : Table :=
  let df := df.setColQ "unit_cost_usd" ((df.numCol "unit_cost").map (· * a.fx_rate))
  let df := df.setColQ "total_purchase_cost"
    (List.zipWith (· * ·) (df.numCol "unit_cost_usd") (df.numCol "qty"))
  let total_cbm0 := (df.numCol "total_line_cbm").sum
  let total_kg0 := (df.numCol "total_line_weight_kg").sum
  let total_cbm := if total_cbm0 = 0 then 1 else total_cbm0
  let total_kg := if total_kg0 = 0 then 1 else total_kg0
  let df := df.setColQ "alloc_share"
    (if a.allocation_method = "weight" then
      (df.numCol "total_line_weight_kg").map (· / total_kg)
    else if a.allocation_method = "hybrid" then
      List.zipWith (fun c w => 1/2 * (c / total_cbm) + 1/2 * (w / total_kg))
        (df.numCol "total_line_cbm") (df.numCol "total_line_weight_kg")
    else
      (df.numCol "total_line_cbm").map (· / total_cbm))
  let df := df.setColQ "allocated_freight_total"
    ((df.numCol "alloc_share").map (a.freight_total_spend * ·))
  let df := df.setColQ "unit_freight_cost"
    (List.zipWith (· / ·) (df.numCol "allocated_freight_total") (df.numCol "qty"))
  let df := df.setColQ "unit_duty_amt"
    (List.zipWith (fun u d => u * (d / 100)) (df.numCol "unit_cost_usd")
      (df.numCol "duty_rate_pct"))
  let total_invoice_val := (df.numCol "total_purchase_cost").sum
  let total_mpf := min (max (total_invoice_val * a.mpf_rate) a.mpf_min) a.mpf_max
  let total_hmf := total_invoice_val * a.hmf_rate
  let total_fixed_import_fees := total_mpf + total_hmf + a.brokerage_fee
  let tiv := if total_invoice_val = 0 then 1 else total_invoice_val
  let df := df.setColQ "value_share" ((df.numCol "total_purchase_cost").map (· / tiv))
  let df := df.setColQ "allocated_import_fees"
    ((df.numCol "value_share").map (total_fixed_import_fees * ·))
  let df := df.setColQ "unit_import_fees"
    (List.zipWith (· / ·) (df.numCol "allocated_import_fees") (df.numCol "qty"))
  df.setColQ "landed_cost_unit"
    (List.zipWith (· + ·)
      (List.zipWith (· + ·)
        (List.zipWith (· + ·) (df.numCol "unit_cost_usd") (df.numCol "unit_freight_cost"))
        (df.numCol "unit_duty_amt"))
      (df.numCol "unit_import_fees"))

/-- calc_wfs (lines 185-190): the per-row fulfillment fee as a function of
billable weight. -/
def calcWfs (a : Assumptions) (bw : ℚ) : ℚ :=
  if bw ≤ a.wfs_base_weight_lb then a.wfs_base_fee
  else a.wfs_base_fee + (bw - a.wfs_base_weight_lb) * a.wfs_excess_per_lb

/-- var_fee_pct of line 221: built from the global default referral rate,
ads and returns percentages only. -/
def varFeePct (a : Assumptions) : ℚ :=
  (a.default_referral_pct + a.ads_pct_sales + a.returns_pct_sales) / 100

/-- calculate_walmart_economics (lines 164-227), in source order.  The
referral override check (line 170) is the literal column name
'walmart_referral_pct' being present with positive column sum; the embedding
reads the column numerically (the engine would crash on a non-numeric
override column at the .sum() call, which no claim exercises). -/
def calculateWalmartEconomics (df : Table) (a : Assumptions) : Table :=
  let df :=
    if "walmart_referral_pct" ∈ df.names ∧ 0 < (df.numCol "walmart_referral_pct").sum then
      df.setColQ "referral_fee"
        (List.zipWith (fun p r => p * (r / 100)) (df.numCol "selling_price")
          (df.numCol "walmart_referral_pct"))
    else
      df.setColQ "referral_fee"
        ((df.numCol "selling_price").map (· * (a.default_referral_pct / 100)))
  let df := df.setColQ "wfs_fulfillment_fee"
    ((df.numCol "billable_weight_lb").map (calcWfs a))
  let df := df.setColQ "wfs_storage_fee_mo"
    ((df.numCol "unit_cuft").map (· * a.wfs_storage_rate))
  let df := df.setColQ "ads_cost"
    ((df.numCol "selling_price").map (· * (a.ads_pct_sales / 100)))
  let df := df.setColQ "returns_cost"
    ((df.numCol "selling_price").map (· * (a.returns_pct_sales / 100)))
  let df := df.setColQ "total_amz_fees"
    (List.zipWith (· + ·)
      (List.zipWith (· + ·)
        (List.zipWith (· + ·)
          (List.zipWith (· + ·) (df.numCol "referral_fee") (df.numCol "wfs_fulfillment_fee"))
          (df.numCol "wfs_storage_fee_mo"))
        (df.numCol "ads_cost"))
      (df.numCol "returns_cost"))
  let df := df.setColQ "net_profit"
    (List.zipWith (· - ·)
      (List.zipWith (· - ·) (df.numCol "selling_price") (df.numCol "landed_cost_unit"))
      (df.numCol "total_amz_fees"))
  let df := df.setColQ "net_margin_pct"
    (List.zipWith (fun np sp => np / sp * 100) (df.numCol "net_profit")
      (df.numCol "selling_price"))
  let df := df.setColQ "roi_pct"
    (List.zipWith (fun np lc => np / lc * 100) (df.numCol "net_profit")
      (df.numCol "landed_cost_unit"))
  let df := df.setColQ "breakeven_price"
    ((List.zipWith (· + ·)
      (List.zipWith (· + ·) (df.numCol "landed_cost_unit") (df.numCol "wfs_fulfillment_fee"))
      (df.numCol "wfs_storage_fee_mo")).map (· / (1 - varFeePct a)))
  df.setCol "is_profitable" ((df.numCol "net_profit").map (fun np => Value.bool (0 < np)))

/-- The whole engine run as the app performs it (app.py lines 204-208). -/
def fullRun (df : Table) (m : Mappings) (a : Assumptions) : Table :=
  calculateWalmartEconomics (calculateLandedCost (runConversions df m a) a) a

/-
Spec-level aggregate definitions (read off the same source lines, stated at
the allocator's input) used to phrase the claims about calculate_landed_cost.
-/

/-- Column unit_cost_usd as computed at line 100. -/
def unitCostUsdCol (df : Table) (a : Assumptions) : List ℚ :=
  (df.numCol "unit_cost").map (· * a.fx_rate)

/-- Column total_purchase_cost as computed at line 101. -/
def totalPurchaseCol (df : Table) (a : Assumptions) : List ℚ :=
  List.zipWith (· * ·) (unitCostUsdCol df a) (df.numCol "qty")

/-- total_invoice_val of line 144. -/
def totalInvoiceVal (df : Table) (a : Assumptions) : ℚ :=
  (totalPurchaseCol df a).sum

/-- total_mpf of line 145: the single batch-level clamped MPF. -/
def totalMpf (df : Table) (a : Assumptions) : ℚ :=
  min (max (totalInvoiceVal df a * a.mpf_rate) a.mpf_min) a.mpf_max

/-- total_hmf of line 146. -/
def totalHmf (df : Table) (a : Assumptions) : ℚ :=
  totalInvoiceVal df a * a.hmf_rate

/-- The invoice-value denominator after the 0 -> 1 fallback of line 151. -/
def tivFallback (df : Table) (a : Assumptions) : ℚ :=
  if totalInvoiceVal df a = 0 then 1 else totalInvoiceVal df a

/-- Shipment total CBM aggregate at the allocator's input (line 105). -/
def totalCbmOf (df : Table) : ℚ :=
  (df.numCol "total_line_cbm").sum

/-- Shipment total weight aggregate at the allocator's input (line 106). -/
def totalKgOf (df : Table) : ℚ :=
  (df.numCol "total_line_weight_kg").sum

/-- Sum of the allocated_freight_total column produced by the allocator. -/
def allocatedFreightSum (df : Table) (a : Assumptions) : ℚ :=
  ((calculateLandedCost df a).numCol "allocated_freight_total").sum

/-- Sum of the allocated_import_fees column produced by the allocator. -/
def allocatedImportSum (df : Table) (a : Assumptions) : ℚ :=
  ((calculateLandedCost df a).numCol "allocated_import_fees").sum

/-
Object-identity model for the copy-on-entry claim: DataFrames live in a heap
of slots, a variable holds a slot index.  df.copy() allocates a fresh slot
with the same value; had __init__ stored the caller's reference instead, the
engine's writes would land in the caller's slot.
-/

/-- A heap of DataFrame objects. -/
abbrev PyHeap : Type := List Table

/-- Dereference a DataFrame object (out-of-range reads as an empty frame,
never exercised). -/
def heapRead (h : PyHeap) (i : Nat) : Table :=
  (List.getD h i ⟨0, []⟩)

/-- Overwrite the object in slot i. -/
def heapWrite (h : PyHeap) (i : Nat) (d : Table) : PyHeap :=
  List.set h i d

/-- Allocate a fresh object, returning its slot. -/
def heapAlloc (h : PyHeap) (d : Table) : PyHeap × Nat :=
  (h ++ [d], List.length h)

/-- The engine object: a reference to its own DataFrame plus the immutable
mappings and assumptions. -/
structure EngineObj where
  df_ref : Nat
  emap : Mappings
  assumptions : Assumptions

/-- UnitEconomicsEngine.__init__ (lines 10-14): self.df = df.copy() allocates
a fresh object holding the caller table's current value. -/
def engineInit (h : PyHeap) (caller : Nat) (m : Mappings) (a : Assumptions) :
    PyHeap × EngineObj :=
  let alloc := heapAlloc h (heapRead h caller)
  (alloc.1, ⟨alloc.2, m, a⟩)

/-- One engine pass: read self.df, transform, store back into self.df. -/
def enginePass (f : Table → Assumptions → Table) (h : PyHeap) (e : EngineObj) : PyHeap :=
  heapWrite h e.df_ref (f (heapRead h e.df_ref) e.assumptions)

/-- The engine driven exactly as app.py lines 204-208 drives it: construct,
run the three passes, return the final heap and the engine object (whose
df_ref designates the results object handed to get_results). -/
def engineRunAll (h : PyHeap) (caller : Nat) (m : Mappings) (a : Assumptions) :
    PyHeap × EngineObj :=
  let he := engineInit h caller m a
  let h1 := enginePass (fun df a' => runConversions df he.2.emap a') he.1 he.2
  let h2 := enginePass calculateLandedCost h1 he.2
  let h3 := enginePass calculateWalmartEconomics h2 he.2
  (h3, he.2)

/-
Auxiliary definitions used to state the claims.
-/

/-- Rewrite a table whose dimensions are in centimeters into the equivalent
table in inches: each dimension x becomes x / 2.54 (the claim's notion of
"the same physical dimension entered in the other unit"). -/
def cmAsInches (df : Table) : Table :=
  let df := df.setColQ "length" ((df.numCol "length").map (· / 2.54))
  let df := df.setColQ "width" ((df.numCol "width").map (· / 2.54))
  df.setColQ "height" ((df.numCol "height").map (· / 2.54))

/-- The same assumptions with the dimension unit switched to inches. -/
def withUomIn (a : Assumptions) : Assumptions :=
  ⟨"in", a.uom_weight, a.fx_rate, a.freight_total_spend, a.allocation_method,
   a.mpf_rate, a.mpf_min, a.mpf_max, a.hmf_rate, a.brokerage_fee,
   a.default_referral_pct, a.wfs_storage_rate, a.wfs_base_fee,
   a.wfs_base_weight_lb, a.wfs_excess_per_lb, a.dim_divisor, a.ads_pct_sales,
   a.returns_pct_sales⟩

/-- The internal canonical column names the mapping loop can write. -/
def internalNames : List String :=
  ["sku", "qty", "unit_cost", "length", "width", "height", "weight",
   "selling_price", "duty_rate_pct"]

/-- The sku mapping shares its dict key with no other canonical field
(two canonical fields mapped to the same source column collapse in the
target_cols dict literal). -/
def skuKeyUnique (m : Mappings) : Prop :=
  m.sku ∉ [m.qty, m.unit_cost, m.length, m.width, m.height, m.weight,
           m.selling_price, m.duty_rate]

instance (m : Mappings) : Decidable (skuKeyUnique m) := by
  unfold skuKeyUnique; infer_instance

/-- The sku source column is effectively absent: unmapped, empty-named, or
not a column of the raw table. -/
def skuSourceMissing (m : Mappings) (df : Table) : Prop :=
  match m.sku with
  | none => True
  | some s => s = "" ∨ s ∉ df.names

instance (m : Mappings) (df : Table) : Decidable (skuSourceMissing m df) := by
  unfold skuSourceMissing
  cases m.sku with
  | none => exact inferInstanceAs (Decidable True)
  | some s => exact inferInstanceAs (Decidable (s = "" ∨ s ∉ df.names))

/-
Concrete inputs used by witnesses, counterexamples and the code-bug exhibit.
-/

/-- The spec's worked scenario (section 8): one row, qty 100, factory cost 2,
30 x 20 x 10 cm, 0.5 kg, selling price 15. -/
def sampleRaw : Table :=
  ⟨1, [("sku", [Value.str "A"]), ("qty", [Value.num 100]),
       ("unit_cost", [Value.num 2]), ("length", [Value.num 30]),
       ("width", [Value.num 20]), ("height", [Value.num 10]),
       ("weight", [Value.num (1/2)]), ("selling_price", [Value.num 15])]⟩

/-- The same scenario with qty 0 (the division-by-zero exhibit). -/
def sampleRawQty0 : Table :=
  ⟨1, [("sku", [Value.str "A"]), ("qty", [Value.num 0]),
       ("unit_cost", [Value.num 2]), ("length", [Value.num 30]),
       ("width", [Value.num 20]), ("height", [Value.num 10]),
       ("weight", [Value.num (1/2)]), ("selling_price", [Value.num 15])]⟩

/-- Identity mapping for the sample tables (duty rate left unmapped). -/
def sampleMap : Mappings :=
  ⟨some "sku", some "qty", some "unit_cost", some "length", some "width",
   some "height", some "weight", some "selling_price", none⟩

/-- The spec scenario's assumptions (section 8). -/
def sampleAssumptions : Assumptions :=
  ⟨"cm", "kg", 1, 1000, "cbm", 0.003464, 31, 614, 0.00125, 150,
   15, 0.87, 3.45, 1, 0.4, 139, 5, 3⟩

/-- A two-row allocator-level table (normalized columns present). -/
def allocTable : Table :=
  ⟨2, [("qty", [Value.num 10, Value.num 5]),
       ("unit_cost", [Value.num 2, Value.num 4]),
       ("duty_rate_pct", [Value.num 0, Value.num 5]),
       ("total_line_cbm", [Value.num (3/5), Value.num (2/5)]),
       ("total_line_weight_kg", [Value.num 5, Value.num 3])]⟩

/-- A table carrying a walmart_referral_pct override column whose entries are
5 and -5: not uniformly non-positive, yet summing to 0. -/
def refOverrideTable : Table :=
  ⟨2, [("selling_price", [Value.num 10, Value.num 10]),
       ("walmart_referral_pct", [Value.num 5, Value.num (-5)])]⟩

/-- A one-row profitability-level table: landed cost 10, billable weight 0,
storage volume 0. -/
def breakevenTable : Table :=
  ⟨1, [("selling_price", [Value.num 15]), ("landed_cost_unit", [Value.num 10]),
       ("billable_weight_lb", [Value.num 0]), ("unit_cuft", [Value.num 0])]⟩

/-- Assumptions whose variable-fee fraction is 110% (referral 110, ads 0,
returns 0) and whose base fulfillment fee is 0. -/
def feeHeavyAssumptions : Assumptions :=
  ⟨"cm", "kg", 1, 1000, "cbm", 0.003464, 31, 614, 0.00125, 150,
   110, 0.87, 0, 1, 0.4, 139, 0, 0⟩

/-- Assumptions whose variable-fee fraction is exactly 100% (referral 100,
ads 0, returns 0). -/
def feeExactAssumptions : Assumptions :=
  ⟨"cm", "kg", 1, 1000, "cbm", 0.003464, 31, 614, 0.00125, 150,
   100, 0.87, 0, 1, 0.4, 139, 0, 0⟩

/-- A one-row table with a strictly positive referral override column. -/
def povTable : Table :=
  ⟨1, [("selling_price", [Value.num 10]), ("walmart_referral_pct", [Value.num 8])]⟩

/-- Raw table for the sku-collision counterexample: columns A and B only. -/
def collisionRaw : Table :=
  ⟨1, [("A", [Value.num 7]), ("B", [Value.num 1])]⟩

/-- Mapping that maps both sku and qty to the same (absent) source column Z:
the target_cols dict literal collapses the two entries, so the sku canonical
column is never produced. -/
def collisionMap : Mappings :=
  ⟨some "Z", some "Z", some "A", some "A", some "A", some "A", some "A",
   some "B", none⟩

/-- Mapping whose sku source column S is absent from collisionRaw while every
other field is mapped to an existing column, with no duplicate sku key. -/
def missSkuMap : Mappings :=
  ⟨some "S", some "A", some "B", some "B", some "B", some "B", some "B",
   some "B", none⟩

/-
Basic lemmas about the table model.
-/

theorem findCol_setPairs (l : List (String × List Value)) (c c' : String) (vs : List Value) :
    findCol (setPairs l c vs) c' = if c' = c then some vs else findCol l c' := by
  induction l with
  | nil =>
    by_cases h : c' = c
    · subst h; simp [setPairs, findCol]
    · have h' : ¬c = c' := fun hx => h hx.symm
      simp [setPairs, findCol, h, h']
  | cons p t ih =>
    obtain ⟨cc, vv⟩ := p
    by_cases h1 : cc = c
    · subst h1
      by_cases h2 : c' = cc
      · subst h2; simp [setPairs, findCol]
      · have h2' : ¬cc = c' := fun hx => h2 hx.symm
        simp [setPairs, findCol, h2, h2']
    · by_cases h2 : c' = c
      · subst h2
        have h1' : ¬c' = cc := fun hx => h1 hx.symm
        simp [setPairs, findCol, h1, h1', ih]
      · by_cases h3 : cc = c' <;> simp [setPairs, findCol, h1, h2, h3, ih]

@[simp] theorem nrows_setCol (df : Table) (c : String) (vs : List Value) :
    (df.setCol c vs).nrows = df.nrows := rfl

@[simp] theorem nrows_setColQ (df : Table) (c : String) (qs : List ℚ) :
    (df.setColQ c qs).nrows = df.nrows := rfl

@[simp] theorem getCol_setCol (df : Table) (c c' : String) (vs : List Value) :
    (df.setCol c vs).getCol c' = if c' = c then vs else df.getCol c' := by
  unfold Table.getCol Table.setCol
  rw [findCol_setPairs]
  by_cases h : c' = c <;> simp [h]

@[simp] theorem toQ_num (q : ℚ) : (Value.num q).toQ = q := rfl

@[simp] theorem getCol_setColQ (df : Table) (c c' : String) (qs : List ℚ) :
    (df.setColQ c qs).getCol c' = if c' = c then qs.map Value.num else df.getCol c' := by
  unfold Table.setColQ
  rw [getCol_setCol]

@[simp] theorem numCol_setColQ (df : Table) (c c' : String) (qs : List ℚ) :
    (df.setColQ c qs).numCol c' = if c' = c then qs else df.numCol c' := by
  unfold Table.numCol Table.setColQ
  rw [getCol_setCol]
  by_cases h : c' = c <;> simp [h, List.map_map, Function.comp_def]

@[simp] theorem numCol_setCol (df : Table) (c c' : String) (vs : List Value) :
    (df.setCol c vs).numCol c' = if c' = c then vs.map Value.toQ else df.numCol c' := by
  unfold Table.numCol
  rw [getCol_setCol]
  by_cases h : c' = c <;> simp [h]

theorem mem_fst_iff_findCol (l : List (String × List Value)) (c : String) :
    c ∈ l.map Prod.fst ↔ (findCol l c).isSome := by
  induction l with
  | nil => simp [findCol]
  | cons p t ih =>
    obtain ⟨cc, vv⟩ := p
    by_cases h : cc = c
    · subst h; simp [findCol]
    · have h' : ¬c = cc := fun hx => h hx.symm
      simp [findCol, h, h', ih]

theorem mem_names_iff_findCol (df : Table) (c : String) :
    c ∈ df.names ↔ (findCol df.cols c).isSome :=
  mem_fst_iff_findCol df.cols c

@[simp] theorem mem_names_setCol (df : Table) (c c' : String) (vs : List Value) :
    (c' ∈ (df.setCol c vs).names) ↔ (c' = c ∨ c' ∈ df.names) := by
  rw [mem_names_iff_findCol, mem_names_iff_findCol]
  show (findCol (setPairs df.cols c vs) c').isSome ↔ _
  rw [findCol_setPairs]
  by_cases h : c' = c <;> simp [h]

@[simp] theorem mem_names_setColQ (df : Table) (c c' : String) (qs : List ℚ) :
    (c' ∈ (df.setColQ c qs).names) ↔ (c' = c ∨ c' ∈ df.names) := by
  unfold Table.setColQ
  exact mem_names_setCol df c c' _

theorem findCol_mem {c : String} {vs : List Value} :
    ∀ (l : List (String × List Value)), findCol l c = some vs → (c, vs) ∈ l := by
  intro l
  induction l with
  | nil => intro h; simp [findCol] at h
  | cons p t ih =>
    obtain ⟨cc, vv⟩ := p
    by_cases hc : cc = c
    · subst hc
      intro h
      simp [findCol] at h
      simp [h]
    · intro h
      simp [findCol, hc] at h
      exact List.mem_cons_of_mem _ (ih h)

theorem getCol_length (df : Table) (hwf : WF df) (c : String) :
    (df.getCol c).length = df.nrows := by
  unfold Table.getCol
  cases h : findCol df.cols c with
  | none => simp
  | some vs =>
    simp only [Option.getD_some]
    exact hwf (c, vs) (findCol_mem df.cols h)

theorem numCol_length (df : Table) (hwf : WF df) (c : String) :
    (df.numCol c).length = df.nrows := by
  unfold Table.numCol
  rw [List.length_map]
  exact getCol_length df hwf c

theorem setPairs_forall {n : Nat} :
    ∀ (l : List (String × List Value)) (c : String) (vs : List Value),
      (∀ p ∈ l, (p : String × List Value).2.length = n) → vs.length = n →
      ∀ p ∈ setPairs l c vs, (p : String × List Value).2.length = n := by
  intro l
  induction l with
  | nil =>
    intro c vs _ h2 p hp
    simp [setPairs] at hp
    subst hp; exact h2
  | cons q t ih =>
    obtain ⟨cc, vv⟩ := q
    intro c vs h1 h2 p hp
    by_cases h : cc = c
    · subst h
      simp [setPairs] at hp
      rcases hp with hp | hp
      · subst hp; exact h2
      · exact h1 p (List.mem_cons_of_mem _ hp)
    · simp only [setPairs, if_neg h, List.mem_cons] at hp
      rcases hp with hp | hp
      · subst hp; exact h1 (cc, vv) (by simp)
      · exact ih c vs (fun q hq => h1 q (List.mem_cons_of_mem _ hq)) h2 p hp

theorem WF_setCol (df : Table) (c : String) (vs : List Value)
    (hwf : WF df) (hlen : vs.length = df.nrows) : WF (df.setCol c vs) := by
  intro p hp
  exact setPairs_forall df.cols c vs hwf hlen p hp

/-
List summation lemmas used by the allocation claims.
-/

theorem sum_map_scale_div (l : List ℚ) (r T : ℚ) :
    (l.map (fun x => r * (x / T))).sum = r * l.sum / T := by
  induction l with
  | nil => simp
  | cons x t ih => rw [List.map_cons, List.sum_cons, ih, List.sum_cons]; ring

theorem sum_map_div (l : List ℚ) (T : ℚ) :
    (l.map (fun x => x / T)).sum = l.sum / T := by
  induction l with
  | nil => simp
  | cons x t ih => rw [List.map_cons, List.sum_cons, ih, List.sum_cons]; ring

theorem sum_map_mul_left (l : List ℚ) (r : ℚ) :
    (l.map (fun x => r * x)).sum = r * l.sum := by
  induction l with
  | nil => simp
  | cons x t ih => rw [List.map_cons, List.sum_cons, ih, List.sum_cons]; ring

theorem sum_zipWith_shares (xs ys : List ℚ) (Tc Tw : ℚ) (h : xs.length = ys.length) :
    (List.zipWith (fun c w => 2⁻¹ * (c / Tc) + 2⁻¹ * (w / Tw)) xs ys).sum
      = 2⁻¹ * (xs.sum / Tc) + 2⁻¹ * (ys.sum / Tw) := by
  induction xs generalizing ys with
  | nil =>
    cases ys with
    | nil => simp
    | cons y t => simp at h
  | cons x t ih =>
    cases ys with
    | nil => simp at h
    | cons y u =>
      simp only [List.length_cons, Nat.succ_inj] at h
      rw [List.zipWith_cons_cons, List.sum_cons, ih u h, List.sum_cons, List.sum_cons]
      ring

theorem zipWith_ext (f g : ℚ → ℚ → ℚ) (h : ∀ x y, f x y = g x y) (xs ys : List ℚ) :
    List.zipWith f xs ys = List.zipWith g xs ys := by
  have hf : f = g := funext fun x => funext fun y => h x y
  rw [hf]

theorem map_ext' (f g : ℚ → ℚ) (h : ∀ x, f x = g x) (l : List ℚ) :
    l.map f = l.map g := by
  have hf : f = g := funext h
  rw [hf]

theorem getD_set_ne (l : List Table) (i j : Nat) (x d : Table) (hij : i ≠ j) :
    (l.set i x).getD j d = l.getD j d := by
  induction l generalizing i j with
  | nil => simp
  | cons y t ih =>
    cases i with
    | zero =>
      cases j with
      | zero => exact absurd rfl hij
      | succ j' => rw [List.set_cons_zero, List.getD_cons_succ, List.getD_cons_succ]
    | succ i' =>
      cases j with
      | zero => rw [List.set_cons_succ, List.getD_cons_zero, List.getD_cons_zero]
      | succ j' =>
        rw [List.set_cons_succ, List.getD_cons_succ, List.getD_cons_succ]
        exact ih i' j' (fun hh => hij (by rw [hh]))

theorem getD_append_left (l l' : List Table) (j : Nat) (hj : j < l.length) (d : Table) :
    (l ++ l').getD j d = l.getD j d := by
  induction l generalizing j with
  | nil => simp at hj
  | cons y t ih =>
    cases j with
    | zero => rw [List.cons_append, List.getD_cons_zero, List.getD_cons_zero]
    | succ j' =>
      rw [List.cons_append, List.getD_cons_succ, List.getD_cons_succ]
      exact ih j' (by simpa using hj)

/-
Claim theorems.
-/

/-- C1.  For every allocator input table and assumptions: whenever the
aggregate used by the chosen allocation_method is nonzero (total CBM for
cbm, total weight for weight, both for hybrid), the allocated_freight_total
column sums to freight_total_spend; and whenever the total invoice value is
nonzero, the allocated_import_fees column sums to
total_mpf + total_hmf + brokerage_fee. -/
theorem freight_and_import_fee_allocation_sums (df : Table) (a : Assumptions)
    (hwf : WF df) :
    (a.allocation_method = "cbm" → totalCbmOf df ≠ 0 →
      allocatedFreightSum df a = a.freight_total_spend) ∧
    (a.allocation_method = "weight" → totalKgOf df ≠ 0 →
      allocatedFreightSum df a = a.freight_total_spend) ∧
    (a.allocation_method = "hybrid" → totalCbmOf df ≠ 0 → totalKgOf df ≠ 0 →
      allocatedFreightSum df a = a.freight_total_spend) ∧
    (totalInvoiceVal df a ≠ 0 →
      allocatedImportSum df a = totalMpf df a + totalHmf df a + a.brokerage_fee) := by
  refine ⟨?_, ?_, ?_, ?_⟩
  · intro hm h
    unfold allocatedFreightSum calculateLandedCost
    unfold totalCbmOf at h
    simp [hm, Function.comp_def]
    rw [if_neg h, sum_map_scale_div, mul_div_assoc, div_self h, mul_one]
  · intro hm h
    unfold allocatedFreightSum calculateLandedCost
    unfold totalKgOf at h
    simp [hm, Function.comp_def]
    rw [if_neg h, sum_map_scale_div, mul_div_assoc, div_self h, mul_one]
  · intro hm hc hk
    unfold allocatedFreightSum calculateLandedCost
    unfold totalCbmOf at hc
    unfold totalKgOf at hk
    simp [hm, Function.comp_def]
    rw [if_neg hc, if_neg hk, sum_map_mul_left,
      sum_zipWith_shares _ _ _ _ (by rw [numCol_length df hwf, numCol_length df hwf]),
      div_self hc, div_self hk]
    norm_num
  · intro h
    unfold allocatedImportSum calculateLandedCost
    unfold totalInvoiceVal totalPurchaseCol unitCostUsdCol at h
    simp [Function.comp_def]
    rw [if_neg h, sum_map_scale_div, mul_div_assoc, div_self h, mul_one]
    simp [totalMpf, totalHmf, totalInvoiceVal, totalPurchaseCol, unitCostUsdCol]

/-- C1 witness: on a concrete two-row shipment with the cbm method, the
freight allocation sums to the freight spend and the import-fee allocation
sums to the fixed import-fee total. -/
theorem freight_and_import_fee_allocation_sums_witness :
    allocatedFreightSum allocTable sampleAssumptions
        = sampleAssumptions.freight_total_spend ∧
    allocatedImportSum allocTable sampleAssumptions
        = totalMpf allocTable sampleAssumptions + totalHmf allocTable sampleAssumptions
            + sampleAssumptions.brokerage_fee :=
  ⟨(freight_and_import_fee_allocation_sums allocTable sampleAssumptions
      (by decide)).1 rfl (of_decide_eq_true (by with_unfolding_all rfl)),
   (freight_and_import_fee_allocation_sums allocTable sampleAssumptions
      (by decide)).2.2.2 (of_decide_eq_true (by with_unfolding_all rfl))⟩

/-- C2.  The Merchandise Processing Fee is computed once, on the aggregate
invoice value (the sum of the total_purchase_cost column): assuming
mpf_min ≤ mpf_max it is mpf_min below the floor, mpf_max above the ceiling
and ad valorem in between; and the per-row allocated_import_fees column is
derived from that single aggregate MPF by value share, never from a per-line
clamp. -/
theorem mpf_single_aggregate_clamp (df : Table) (a : Assumptions)
    (h : a.mpf_min ≤ a.mpf_max) :
    ((calculateLandedCost df a).numCol "total_purchase_cost" = totalPurchaseCol df a) ∧
    (totalInvoiceVal df a * a.mpf_rate < a.mpf_min → totalMpf df a = a.mpf_min) ∧
    (a.mpf_max < totalInvoiceVal df a * a.mpf_rate → totalMpf df a = a.mpf_max) ∧
    (a.mpf_min ≤ totalInvoiceVal df a * a.mpf_rate →
      totalInvoiceVal df a * a.mpf_rate ≤ a.mpf_max →
      totalMpf df a = totalInvoiceVal df a * a.mpf_rate) ∧
    ((calculateLandedCost df a).numCol "allocated_import_fees"
      = (totalPurchaseCol df a).map
          (fun t => (totalMpf df a + totalHmf df a + a.brokerage_fee) * (t / tivFallback df a))) := by
  refine ⟨?_, ?_, ?_, ?_, ?_⟩
  · unfold calculateLandedCost
    simp [totalPurchaseCol, unitCostUsdCol]
  · intro hlt
    unfold totalMpf
    rw [max_eq_right hlt.le, min_eq_left h]
  · intro hgt
    unfold totalMpf
    rw [max_eq_left (le_trans h hgt.le), min_eq_right hgt.le]
  · intro h1 h2
    unfold totalMpf
    rw [max_eq_left h1, min_eq_left h2]
  · unfold calculateLandedCost
    simp [tivFallback, totalMpf, totalHmf, totalInvoiceVal, totalPurchaseCol,
      unitCostUsdCol, Function.comp_def]

/-- C2 witness: on the concrete two-row shipment (total invoice value 40,
so 40 x 0.003464 is below the 31 floor) the batch MPF is the floor value,
and the allocated import-fee column is the value-share allocation of the
single aggregate fee total. -/
theorem mpf_single_aggregate_clamp_witness :
    totalMpf allocTable sampleAssumptions = sampleAssumptions.mpf_min ∧
    ((calculateLandedCost allocTable sampleAssumptions).numCol "allocated_import_fees"
      = (totalPurchaseCol allocTable sampleAssumptions).map
          (fun t => (totalMpf allocTable sampleAssumptions
              + totalHmf allocTable sampleAssumptions
              + sampleAssumptions.brokerage_fee)
            * (t / tivFallback allocTable sampleAssumptions))) :=
  ⟨(mpf_single_aggregate_clamp allocTable sampleAssumptions
      (of_decide_eq_true (by with_unfolding_all rfl))).2.1
      (of_decide_eq_true (by with_unfolding_all rfl)),
   (mpf_single_aggregate_clamp allocTable sampleAssumptions
      (of_decide_eq_true (by with_unfolding_all rfl))).2.2.2.2⟩

/-- C3.  The fulfillment fee column is the row-wise piecewise function
calc_wfs of billable weight; billable weight is the row-wise max of actual
and dimensional pounds; calc_wfs is the claimed piecewise function, is
monotone non-decreasing when the excess rate is nonnegative, and equals the
base fee exactly at the breakpoint. -/
theorem wfs_fee_piecewise_monotone (a : Assumptions) (h : 0 ≤ a.wfs_excess_per_lb) :
    (∀ df : Table, (calculateWalmartEconomics df a).numCol "wfs_fulfillment_fee"
        = (df.numCol "billable_weight_lb").map (calcWfs a)) ∧
    (∀ (df : Table) (m : Mappings), (runConversions df m a).numCol "billable_weight_lb"
        = List.zipWith max ((runConversions df m a).numCol "weight_lb")
            ((runConversions df m a).numCol "dim_weight_lb")) ∧
    (∀ bw : ℚ, bw ≤ a.wfs_base_weight_lb → calcWfs a bw = a.wfs_base_fee) ∧
    (∀ bw : ℚ, a.wfs_base_weight_lb < bw →
        calcWfs a bw = a.wfs_base_fee + (bw - a.wfs_base_weight_lb) * a.wfs_excess_per_lb) ∧
    (∀ b1 b2 : ℚ, b1 ≤ b2 → calcWfs a b1 ≤ calcWfs a b2) ∧
    (calcWfs a a.wfs_base_weight_lb = a.wfs_base_fee) := by
  refine ⟨?_, ?_, ?_, ?_, ?_, ?_⟩
  · intro df
    by_cases hc : "walmart_referral_pct" ∈ df.names ∧ 0 < (df.numCol "walmart_referral_pct").sum
    · simp [calculateWalmartEconomics, hc]
    · simp [calculateWalmartEconomics, hc]
  · intro df m
    unfold runConversions convSteps
    by_cases h1 : a.uom_dim = "in" <;> by_cases h2 : a.uom_weight = "lb" <;>
      simp [volumeMetrics, weightConvert, dimConvert, h1, h2]
  · intro bw hbw
    simp [calcWfs, hbw]
  · intro bw hbw
    simp [calcWfs, not_le.mpr hbw]
  · intro b1 b2 hb
    unfold calcWfs
    split_ifs with h1 h2 h2 <;> nlinarith
  · simp [calcWfs]

/-- C3 witness: with the sample rate card (excess rate 0.40 per lb) the fee
at the breakpoint equals the base fee, the fee is monotone between billable
weights 1 and 2, and on a concrete table the fulfillment column is the map
of calc_wfs over billable weight. -/
theorem wfs_fee_piecewise_monotone_witness :
    calcWfs sampleAssumptions sampleAssumptions.wfs_base_weight_lb
        = sampleAssumptions.wfs_base_fee ∧
    calcWfs sampleAssumptions 1 ≤ calcWfs sampleAssumptions 2 ∧
    (calculateWalmartEconomics breakevenTable sampleAssumptions).numCol "wfs_fulfillment_fee"
      = (breakevenTable.numCol "billable_weight_lb").map (calcWfs sampleAssumptions) :=
  ⟨(wfs_fee_piecewise_monotone sampleAssumptions
      (of_decide_eq_true (by with_unfolding_all rfl))).2.2.2.2.2,
   (wfs_fee_piecewise_monotone sampleAssumptions
      (of_decide_eq_true (by with_unfolding_all rfl))).2.2.2.2.1 1 2
      (of_decide_eq_true (by with_unfolding_all rfl)),
   (wfs_fee_piecewise_monotone sampleAssumptions
      (of_decide_eq_true (by with_unfolding_all rfl))).1 breakevenTable⟩

/-- C4 counterexample.  The claim says the per-row override is used exactly
when the override column exists and its values are not uniformly
non-positive.  On a table whose override column is [5, -5] the column exists
and contains a positive value, yet the engine charges the 15% global default
(fee 1.50 on both rows) instead of the per-row override fees [0.50, -0.50]:
the engine's actual test is column sum > 0, and 5 + (-5) = 0. -/
theorem referral_override_claim_counterexample :
    ("walmart_referral_pct" ∈ refOverrideTable.names) ∧
    (∃ v ∈ refOverrideTable.numCol "walmart_referral_pct", 0 < v) ∧
    ((calculateWalmartEconomics refOverrideTable sampleAssumptions).numCol "referral_fee"
      = [3/2, 3/2]) ∧
    ((calculateWalmartEconomics refOverrideTable sampleAssumptions).numCol "referral_fee"
      ≠ List.zipWith (fun p r => p * (r / 100)) (refOverrideTable.numCol "selling_price")
          (refOverrideTable.numCol "walmart_referral_pct")) :=
  ⟨by decide,
   ⟨5, of_decide_eq_true (by with_unfolding_all rfl),
       of_decide_eq_true (by with_unfolding_all rfl)⟩,
   of_decide_eq_true (by with_unfolding_all rfl),
   of_decide_eq_true (by with_unfolding_all rfl)⟩

/-- C4 amended.  The per-row override is used exactly when a column literally
named walmart_referral_pct exists and its column sum is strictly positive
(equivalent to "not uniformly non-positive" only when all override entries
are nonnegative); otherwise every row is charged the global default rate. -/
theorem referral_override_sum_condition (df : Table) (a : Assumptions) :
    (("walmart_referral_pct" ∈ df.names ∧ 0 < (df.numCol "walmart_referral_pct").sum) →
      (calculateWalmartEconomics df a).numCol "referral_fee"
        = List.zipWith (fun p r => p * (r / 100)) (df.numCol "selling_price")
            (df.numCol "walmart_referral_pct")) ∧
    (¬("walmart_referral_pct" ∈ df.names ∧ 0 < (df.numCol "walmart_referral_pct").sum) →
      (calculateWalmartEconomics df a).numCol "referral_fee"
        = (df.numCol "selling_price").map (· * (a.default_referral_pct / 100))) := by
  constructor
  · intro hc
    simp [calculateWalmartEconomics, hc]
  · intro hc
    simp [calculateWalmartEconomics, hc]

/-- C4 witness: a positive-sum override column is honored row-wise, and a
table without the override column gets the global default on every row. -/
theorem referral_override_sum_condition_witness :
    (calculateWalmartEconomics povTable sampleAssumptions).numCol "referral_fee"
      = List.zipWith (fun p r => p * (r / 100)) (povTable.numCol "selling_price")
          (povTable.numCol "walmart_referral_pct") ∧
    (calculateWalmartEconomics breakevenTable sampleAssumptions).numCol "referral_fee"
      = (breakevenTable.numCol "selling_price").map
          (· * (sampleAssumptions.default_referral_pct / 100)) :=
  ⟨(referral_override_sum_condition povTable sampleAssumptions).1
      ⟨by decide, of_decide_eq_true (by with_unfolding_all rfl)⟩,
   (referral_override_sum_condition breakevenTable sampleAssumptions).2
      (of_decide_eq_true (by with_unfolding_all rfl))⟩

/-- C5 counterexample.  The claim says that whenever the variable fee
fraction is at least 1 the breakeven price is a non-finite/invalid marker.
With referral 110%, ads 0, returns 0 the fraction is 1.1 ≥ 1, but the
denominator 1 - 1.1 = -0.1 is nonzero, so the float division is an ordinary
finite (negative) number: on a row with fixed costs 10 the engine produces
the masked finite value -100, not a non-finite marker.  (Only the fraction
being exactly 1 makes the denominator vanish.) -/
theorem breakeven_nonfinite_claim_counterexample :
    1 ≤ varFeePct feeHeavyAssumptions ∧
    1 - varFeePct feeHeavyAssumptions ≠ 0 ∧
    (calculateWalmartEconomics breakevenTable feeHeavyAssumptions).numCol "breakeven_price"
      = [-100] :=
  ⟨of_decide_eq_true (by with_unfolding_all rfl),
   of_decide_eq_true (by with_unfolding_all rfl),
   of_decide_eq_true (by with_unfolding_all rfl)⟩

/-- C5 amended.  Every row's breakeven price is
(landed_cost_unit + fulfillment_fee + storage_fee) / (1 - variable fee
fraction), where the fraction is built from the global default referral rate
(never a per-row override); the division's denominator vanishes (the float
result is non-finite) exactly when the fraction equals 1, while a fraction
strictly above 1 leaves a nonzero negative denominator, hence an ordinary
finite negative price. -/
theorem breakeven_formula_denominator (df : Table) (a : Assumptions) :
    ((calculateWalmartEconomics df a).numCol "breakeven_price"
      = (List.zipWith (· + ·)
          (List.zipWith (· + ·) (df.numCol "landed_cost_unit")
            ((df.numCol "billable_weight_lb").map (calcWfs a)))
          ((df.numCol "unit_cuft").map (· * a.wfs_storage_rate))).map
            (· / (1 - varFeePct a))) ∧
    (varFeePct a = 1 → 1 - varFeePct a = 0) ∧
    (1 < varFeePct a → 1 - varFeePct a < 0) := by
  refine ⟨?_, ?_, ?_⟩
  · by_cases hc : "walmart_referral_pct" ∈ df.names ∧ 0 < (df.numCol "walmart_referral_pct").sum
    · simp [calculateWalmartEconomics, hc]
    · simp [calculateWalmartEconomics, hc]
  · intro h1; rw [h1]; ring
  · intro h1; linarith

/-- C5 witness: the breakeven column of a concrete run matches the formula,
a variable-fee fraction of exactly 1 nullifies the denominator, and a
fraction of 1.1 leaves it negative (finite). -/
theorem breakeven_formula_denominator_witness :
    ((calculateWalmartEconomics breakevenTable sampleAssumptions).numCol "breakeven_price"
      = (List.zipWith (· + ·)
          (List.zipWith (· + ·) (breakevenTable.numCol "landed_cost_unit")
            ((breakevenTable.numCol "billable_weight_lb").map (calcWfs sampleAssumptions)))
          ((breakevenTable.numCol "unit_cuft").map
            (· * sampleAssumptions.wfs_storage_rate))).map
            (· / (1 - varFeePct sampleAssumptions))) ∧
    1 - varFeePct feeExactAssumptions = 0 ∧
    1 - varFeePct feeHeavyAssumptions < 0 :=
  ⟨(breakeven_formula_denominator breakevenTable sampleAssumptions).1,
   (breakeven_formula_denominator breakevenTable feeExactAssumptions).2.1
      (of_decide_eq_true (by with_unfolding_all rfl)),
   (breakeven_formula_denominator breakevenTable feeHeavyAssumptions).2.2
      (of_decide_eq_true (by with_unfolding_all rfl))⟩

/-- C6 code-bug exhibit.  On a one-row catalog whose qty is 0, the allocator
still carries the row into the per-unit derivations and computes
unit_freight_cost and unit_import_fees by dividing the allocated columns by
the qty column, whose sole entry is 0: the divisor is zero and the row is
not excluded.  (In the real pandas/NumPy float pipeline this 0.0/0.0 is NaN,
propagated silently; the rational embedding records the zero divisor.)  The
spec requires that qty = 0 rows never hit a zero-divisor per-unit division
or be excluded from the per-unit math; the code has no such guard. -/
theorem qty_zero_division_exhibit :
    ((runConversions sampleRawQty0 sampleMap sampleAssumptions).numCol "qty" = [0]) ∧
    ((calculateLandedCost (runConversions sampleRawQty0 sampleMap sampleAssumptions)
        sampleAssumptions).numCol "unit_freight_cost"
      = List.zipWith (· / ·)
          ((calculateLandedCost (runConversions sampleRawQty0 sampleMap sampleAssumptions)
              sampleAssumptions).numCol "allocated_freight_total")
          ((calculateLandedCost (runConversions sampleRawQty0 sampleMap sampleAssumptions)
              sampleAssumptions).numCol "qty")) ∧
    ((calculateLandedCost (runConversions sampleRawQty0 sampleMap sampleAssumptions)
        sampleAssumptions).numCol "unit_import_fees"
      = List.zipWith (· / ·)
          ((calculateLandedCost (runConversions sampleRawQty0 sampleMap sampleAssumptions)
              sampleAssumptions).numCol "allocated_import_fees")
          ((calculateLandedCost (runConversions sampleRawQty0 sampleMap sampleAssumptions)
              sampleAssumptions).numCol "qty")) ∧
    (((calculateLandedCost (runConversions sampleRawQty0 sampleMap sampleAssumptions)
        sampleAssumptions).numCol "unit_freight_cost").length = 1) :=
  ⟨of_decide_eq_true (by with_unfolding_all rfl),
   of_decide_eq_true (by with_unfolding_all rfl),
   of_decide_eq_true (by with_unfolding_all rfl),
   of_decide_eq_true (by with_unfolding_all rfl)⟩

/-- C7.  unit_cbm is invariant under the input unit system: a dimension
entered as x cm (meters = x/100) and the same dimension entered as x/2.54
inches (meters = inches x 0.0254) produce exactly the same unit_cbm column,
and hence the same unit_cuft and total_line_cbm columns.  Exact over the
rational embedding because 0.0254/2.54 = 1/100 exactly. -/
theorem unit_cbm_unit_system_invariance (df : Table) (a : Assumptions)
    (h : a.uom_dim = "cm") :
    ((convSteps (cmAsInches df) (withUomIn a)).numCol "unit_cbm"
      = (convSteps df a).numCol "unit_cbm") ∧
    ((convSteps (cmAsInches df) (withUomIn a)).numCol "unit_cuft"
      = (convSteps df a).numCol "unit_cuft") ∧
    ((convSteps (cmAsInches df) (withUomIn a)).numCol "total_line_cbm"
      = (convSteps df a).numCol "total_line_cbm") := by
  refine ⟨?_, ?_, ?_⟩ <;>
    (by_cases h2 : a.uom_weight = "lb" <;>
      simp [convSteps, volumeMetrics, weightConvert, dimConvert, cmAsInches, withUomIn, h, h2,
        List.map_map, Function.comp_def] <;>
      repeat
        first
        | rfl
        | exact zipWith_ext _ _ (fun x y => by ring) _ _
        | exact map_ext' _ _ (fun x => by ring) _
        | congr 1)

/-- C7 witness: the invariance applied to the concrete sample row
(30 x 20 x 10 cm re-entered as inches). -/
theorem unit_cbm_unit_system_invariance_witness :
    ((convSteps (cmAsInches sampleRaw) (withUomIn sampleAssumptions)).numCol "unit_cbm"
      = (convSteps sampleRaw sampleAssumptions).numCol "unit_cbm") ∧
    ((convSteps (cmAsInches sampleRaw) (withUomIn sampleAssumptions)).numCol "unit_cuft"
      = (convSteps sampleRaw sampleAssumptions).numCol "unit_cuft") ∧
    ((convSteps (cmAsInches sampleRaw) (withUomIn sampleAssumptions)).numCol "total_line_cbm"
      = (convSteps sampleRaw sampleAssumptions).numCol "total_line_cbm") :=
  unit_cbm_unit_system_invariance sampleRaw sampleAssumptions rfl

/-- C9.  The engine copies the caller's table at construction
(self.df = df.copy()) and all three passes write only to the engine's own
object: in the heap model, after the full run the caller's slot still holds
the original table, and the engine's result reference is a different slot.
Had __init__ aliased the caller's reference instead of copying, every pass
would have overwritten the caller's slot. -/
theorem engine_copy_on_entry (h : PyHeap) (caller : Nat) (m : Mappings)
    (a : Assumptions) (hc : caller < h.length) :
    heapRead (engineRunAll h caller m a).1 caller = heapRead h caller ∧
    (engineRunAll h caller m a).2.df_ref ≠ caller := by
  unfold engineRunAll engineInit enginePass heapAlloc heapWrite heapRead
  have hne : h.length ≠ caller := fun hh => absurd hc (by rw [hh]; exact lt_irrefl _)
  constructor
  · rw [getD_set_ne _ _ _ _ _ hne, getD_set_ne _ _ _ _ _ hne, getD_set_ne _ _ _ _ _ hne,
      getD_append_left _ _ _ hc]
  · exact hne

/-- C9 witness: a heap holding exactly the sample table in slot 0; after the
engine's full run slot 0 is untouched and the results live elsewhere. -/
theorem engine_copy_on_entry_witness :
    heapRead (engineRunAll [sampleRaw] 0 sampleMap sampleAssumptions).1 0
        = heapRead [sampleRaw] 0 ∧
    (engineRunAll [sampleRaw] 0 sampleMap sampleAssumptions).2.df_ref ≠ 0 :=
  engine_copy_on_entry [sampleRaw] 0 sampleMap sampleAssumptions (by decide)

theorem mem_dinsert (d : List (Option String × String)) (k : Option String) (v : String)
    (p : Option String × String) (hp : p ∈ dinsert d k v) : p = (k, v) ∨ p ∈ d := by
  induction d with
  | nil => simp [dinsert] at hp; simp [hp]
  | cons q t ih =>
    obtain ⟨k0, v0⟩ := q
    by_cases h : k0 = k
    · subst h
      simp [dinsert] at hp
      rcases hp with hp | hp
      · left; simp [hp]
      · right; simp [hp]
    · simp only [dinsert, if_neg h, List.mem_cons] at hp
      rcases hp with hp | hp
      · right; simp [hp]
      · rcases ih hp with hh | hh
        · left; exact hh
        · right; simp [hh]

theorem dinsert_cons_ne (k0 : Option String) (v0 : String) (t : List (Option String × String))
    (k : Option String) (v : String) (h : ¬k0 = k) :
    dinsert ((k0, v0) :: t) k v = (k0, v0) :: dinsert t k v := by
  simp [dinsert, h]

theorem nrows_defaultFill (df : Table) (c : String) : (defaultFill df c).nrows = df.nrows := by
  unfold defaultFill
  by_cases h : c = "sku" <;> simp [h, Table.setScalar]

theorem nrows_mapLoopStep (df : Table) (kv : Option String × String) :
    (mapLoopStep df kv).nrows = df.nrows := by
  unfold mapLoopStep
  cases kv.1 with
  | none => exact nrows_defaultFill df kv.2
  | some s =>
    by_cases h : s ≠ "" ∧ s ∈ df.names
    · simp [h]
    · simp [h, nrows_defaultFill]

theorem getCol_defaultFill_ne (df : Table) (c c' : String) (h : ¬c' = c) :
    (defaultFill df c).getCol c' = df.getCol c' := by
  unfold defaultFill
  by_cases hs : c = "sku"
  · subst hs; simp [Table.setScalar, h]
  · simp [hs, Table.setColQ, h]

theorem getCol_mapLoopStep_ne (df : Table) (kv : Option String × String) (c : String)
    (h : ¬c = kv.2) : (mapLoopStep df kv).getCol c = df.getCol c := by
  unfold mapLoopStep
  cases kv.1 with
  | none => exact getCol_defaultFill_ne df kv.2 c h
  | some s =>
    by_cases hc : s ≠ "" ∧ s ∈ df.names
    · simp [hc, h]
    · simp [hc, getCol_defaultFill_ne df kv.2 c h]

theorem mem_names_defaultFill (df : Table) (c c' : String) :
    (c' ∈ (defaultFill df c).names) ↔ (c' = c ∨ c' ∈ df.names) := by
  unfold defaultFill
  by_cases hs : c = "sku"
  · subst hs; simp [Table.setScalar]
  · simp [hs, Table.setColQ]

theorem mem_names_mapLoopStep (df : Table) (kv : Option String × String) (c : String) :
    (c ∈ (mapLoopStep df kv).names) ↔ (c = kv.2 ∨ c ∈ df.names) := by
  unfold mapLoopStep
  cases kv.1 with
  | none => exact mem_names_defaultFill df kv.2 c
  | some s =>
    by_cases hc : s ≠ "" ∧ s ∈ df.names
    · simp [hc]
    · simp [hc, mem_names_defaultFill]

theorem getCol_foldl_mapLoopStep (l : List (Option String × String)) (df : Table) (c : String)
    (h : ∀ p ∈ l, p.2 ≠ c) :
    (l.foldl mapLoopStep df).getCol c = df.getCol c := by
  induction l generalizing df with
  | nil => rfl
  | cons kv t ih =>
    rw [List.foldl_cons, ih _ (fun p hp => h p (List.mem_cons_of_mem _ hp))]
    exact getCol_mapLoopStep_ne df kv c (fun hh => h kv (by simp) hh.symm)

theorem mem_names_foldl_mapLoopStep (l : List (Option String × String)) (df : Table) (c : String)
    (h : ∀ p ∈ l, p.2 ≠ c) :
    (c ∈ (l.foldl mapLoopStep df).names) ↔ c ∈ df.names := by
  induction l generalizing df with
  | nil => exact Iff.rfl
  | cons kv t ih =>
    rw [List.foldl_cons, ih _ (fun p hp => h p (List.mem_cons_of_mem _ hp)),
      mem_names_mapLoopStep]
    have : ¬ c = kv.2 := fun hh => h kv (by simp) hh.symm
    simp [this]

theorem nrows_foldl_mapLoopStep (l : List (Option String × String)) (df : Table) :
    (l.foldl mapLoopStep df).nrows = df.nrows := by
  induction l generalizing df with
  | nil => rfl
  | cons kv t ih => rw [List.foldl_cons, ih, nrows_mapLoopStep]

theorem targetCols_snd_mem (m : Mappings) :
    ∀ p ∈ targetCols m, p.2 ∈ internalNames := by
  intro p hp
  unfold targetCols at hp
  rcases mem_dinsert _ _ _ _ hp with h | hp
  · rw [h]; simp [internalNames]
  rcases mem_dinsert _ _ _ _ hp with h | hp
  · rw [h]; simp [internalNames]
  rcases mem_dinsert _ _ _ _ hp with h | hp
  · rw [h]; simp [internalNames]
  rcases mem_dinsert _ _ _ _ hp with h | hp
  · rw [h]; simp [internalNames]
  rcases mem_dinsert _ _ _ _ hp with h | hp
  · rw [h]; simp [internalNames]
  rcases mem_dinsert _ _ _ _ hp with h | hp
  · rw [h]; simp [internalNames]
  rcases mem_dinsert _ _ _ _ hp with h | hp
  · rw [h]; simp [internalNames]
  rcases mem_dinsert _ _ _ _ hp with h | hp
  · rw [h]; simp [internalNames]
  rcases mem_dinsert _ _ _ _ hp with h | hp
  · rw [h]; simp [internalNames]
  simp at hp


theorem getCol_of_not_mem (df : Table) (c : String) (h : c ∉ df.names) :
    df.getCol c = List.replicate df.nrows Value.na := by
  unfold Table.getCol
  cases hf : findCol df.cols c with
  | none => simp
  | some vs =>
    rw [mem_names_iff_findCol, hf] at h
    simp at h

theorem nrows_safeNumeric (df : Table) (c : String) : (safeNumeric df c).nrows = df.nrows := by
  unfold safeNumeric
  by_cases h : c ∈ df.names <;> simp [h]

theorem getCol_safeNumeric_ne (df : Table) (c c' : String) (h : ¬c' = c) :
    (safeNumeric df c).getCol c' = df.getCol c' := by
  unfold safeNumeric
  by_cases hm : c ∈ df.names <;> simp [hm, Table.setColQ, h]

theorem getCol_safeNumeric_self (df : Table) (c : String) :
    (safeNumeric df c).getCol c = (df.getCol c).map (fun v => Value.num v.toQ) := by
  unfold safeNumeric
  by_cases hm : c ∈ df.names
  · simp [hm, Table.setColQ, Table.numCol, List.map_map, Function.comp_def]
  · simp [hm, Table.setColQ, Table.numCol, List.map_map, Function.comp_def,
      getCol_of_not_mem df c hm, Value.toQ]

theorem mem_names_safeNumeric (df : Table) (c c' : String) :
    (c' ∈ (safeNumeric df c).names) ↔ (c' = c ∨ c' ∈ df.names) := by
  unfold safeNumeric
  by_cases hm : c ∈ df.names
  · simp [hm, Table.setColQ]
  · simp [hm, Table.setColQ]


theorem getCol_enforceNumeric_sku (df : Table) :
    (enforceNumeric df).getCol "sku" = df.getCol "sku" := by
  simp [enforceNumeric, numericCanon, List.foldl, getCol_safeNumeric_ne]

theorem getCol_enforceNumeric_wrp (df : Table) :
    (enforceNumeric df).getCol "walmart_referral_pct" = df.getCol "walmart_referral_pct" := by
  simp [enforceNumeric, numericCanon, List.foldl, getCol_safeNumeric_ne]

theorem mem_names_enforceNumeric_wrp (df : Table) :
    ("walmart_referral_pct" ∈ (enforceNumeric df).names)
      ↔ "walmart_referral_pct" ∈ df.names := by
  simp [enforceNumeric, numericCanon, List.foldl, mem_names_safeNumeric]

theorem getCol_convSteps_sku (df : Table) (a : Assumptions) :
    (convSteps df a).getCol "sku" = df.getCol "sku" := by
  unfold convSteps volumeMetrics weightConvert dimConvert
  by_cases h1 : a.uom_dim = "in" <;> by_cases h2 : a.uom_weight = "lb" <;> simp [h1, h2]

theorem getCol_convSteps_wrp (df : Table) (a : Assumptions) :
    (convSteps df a).getCol "walmart_referral_pct" = df.getCol "walmart_referral_pct" := by
  unfold convSteps volumeMetrics weightConvert dimConvert
  by_cases h1 : a.uom_dim = "in" <;> by_cases h2 : a.uom_weight = "lb" <;> simp [h1, h2]

theorem mem_names_convSteps_wrp (df : Table) (a : Assumptions) :
    ("walmart_referral_pct" ∈ (convSteps df a).names)
      ↔ "walmart_referral_pct" ∈ df.names := by
  unfold convSteps volumeMetrics weightConvert dimConvert
  by_cases h1 : a.uom_dim = "in" <;> by_cases h2 : a.uom_weight = "lb" <;> simp [h1, h2]

theorem getCol_landed_wrp (df : Table) (a : Assumptions) :
    (calculateLandedCost df a).getCol "walmart_referral_pct"
      = df.getCol "walmart_referral_pct" := by
  simp [calculateLandedCost]

theorem mem_names_landed_wrp (df : Table) (a : Assumptions) :
    ("walmart_referral_pct" ∈ (calculateLandedCost df a).names)
      ↔ "walmart_referral_pct" ∈ df.names := by
  simp [calculateLandedCost]

theorem getCol_econ_wrp (df : Table) (a : Assumptions) :
    (calculateWalmartEconomics df a).getCol "walmart_referral_pct"
      = df.getCol "walmart_referral_pct" := by
  by_cases hc : "walmart_referral_pct" ∈ df.names ∧ 0 < (df.numCol "walmart_referral_pct").sum <;>
    simp [calculateWalmartEconomics, hc]

theorem mem_names_econ_wrp (df : Table) (a : Assumptions) :
    ("walmart_referral_pct" ∈ (calculateWalmartEconomics df a).names)
      ↔ "walmart_referral_pct" ∈ df.names := by
  by_cases hc : "walmart_referral_pct" ∈ df.names ∧ 0 < (df.numCol "walmart_referral_pct").sum <;>
    simp [calculateWalmartEconomics, hc]

theorem getCol_mapLoop_wrp (df : Table) (m : Mappings) :
    (mapLoop df m).getCol "walmart_referral_pct" = df.getCol "walmart_referral_pct" := by
  unfold mapLoop
  refine getCol_foldl_mapLoopStep _ _ _ (fun p hp hq => ?_)
  have := targetCols_snd_mem m p hp
  rw [hq] at this
  simp [internalNames] at this

theorem mem_names_mapLoop_wrp (df : Table) (m : Mappings) :
    ("walmart_referral_pct" ∈ (mapLoop df m).names) ↔ "walmart_referral_pct" ∈ df.names := by
  unfold mapLoop
  refine mem_names_foldl_mapLoopStep _ _ _ (fun p hp hq => ?_)
  have := targetCols_snd_mem m p hp
  rw [hq] at this
  simp [internalNames] at this

theorem getCol_convSteps_canon (df : Table) (a : Assumptions) (c : String)
    (hc : c ∈ numericCanon) : (convSteps df a).getCol c = df.getCol c := by
  simp only [numericCanon, List.mem_cons, List.not_mem_nil, or_false] at hc
  unfold convSteps volumeMetrics weightConvert dimConvert
  by_cases h1 : a.uom_dim = "in" <;> by_cases h2 : a.uom_weight = "lb" <;>
    rcases hc with rfl | rfl | rfl | rfl | rfl | rfl | rfl | rfl <;> simp [h1, h2]

theorem getCol_enforceNumeric_canon (df : Table) (c : String) (hc : c ∈ numericCanon) :
    (enforceNumeric df).getCol c = (df.getCol c).map (fun v => Value.num v.toQ) := by
  simp only [numericCanon, List.mem_cons, List.not_mem_nil, or_false] at hc
  rcases hc with rfl | rfl | rfl | rfl | rfl | rfl | rfl | rfl <;>
    simp [enforceNumeric, numericCanon, List.foldl, getCol_safeNumeric_ne,
      getCol_safeNumeric_self]

theorem sku_default_of_unique_missing (df : Table) (m : Mappings) (a : Assumptions)
    (hku : skuKeyUnique m) (hsm : skuSourceMissing m df) :
    (runConversions df m a).getCol "sku"
      = List.replicate df.nrows (Value.str "Unknown-SKU") := by
  unfold runConversions
  rw [getCol_convSteps_sku, getCol_enforceNumeric_sku]
  unfold skuKeyUnique at hku
  simp only [List.mem_cons, List.not_mem_nil, or_false, not_or] at hku
  obtain ⟨h1, h2, h3, h4, h5, h6, h7, h8⟩ := hku
  unfold mapLoop targetCols
  rw [show dinsert [] m.sku "sku" = [(m.sku, "sku")] from rfl,
    dinsert_cons_ne _ _ _ _ _ h1, dinsert_cons_ne _ _ _ _ _ h2,
    dinsert_cons_ne _ _ _ _ _ h3, dinsert_cons_ne _ _ _ _ _ h4,
    dinsert_cons_ne _ _ _ _ _ h5, dinsert_cons_ne _ _ _ _ _ h6,
    dinsert_cons_ne _ _ _ _ _ h7, dinsert_cons_ne _ _ _ _ _ h8,
    List.foldl_cons]
  have hvals : ∀ p ∈ dinsert (dinsert (dinsert (dinsert (dinsert (dinsert (dinsert
      (dinsert ([] : List (Option String × String)) m.qty "qty") m.unit_cost "unit_cost")
      m.length "length") m.width "width") m.height "height") m.weight "weight")
      m.selling_price "selling_price") m.duty_rate "duty_rate_pct",
      (p : Option String × String).2 ≠ "sku" := by
    intro p hp hq
    rcases mem_dinsert _ _ _ _ hp with h | hp
    · rw [h] at hq; simp at hq
    rcases mem_dinsert _ _ _ _ hp with h | hp
    · rw [h] at hq; simp at hq
    rcases mem_dinsert _ _ _ _ hp with h | hp
    · rw [h] at hq; simp at hq
    rcases mem_dinsert _ _ _ _ hp with h | hp
    · rw [h] at hq; simp at hq
    rcases mem_dinsert _ _ _ _ hp with h | hp
    · rw [h] at hq; simp at hq
    rcases mem_dinsert _ _ _ _ hp with h | hp
    · rw [h] at hq; simp at hq
    rcases mem_dinsert _ _ _ _ hp with h | hp
    · rw [h] at hq; simp at hq
    rcases mem_dinsert _ _ _ _ hp with h | hp
    · rw [h] at hq; simp at hq
    simp at hp
  rw [getCol_foldl_mapLoopStep _ _ _ hvals]
  cases hms : m.sku with
  | none =>
    simp [mapLoopStep, defaultFill, Table.setScalar]
  | some s =>
    unfold skuSourceMissing at hsm
    rw [hms] at hsm
    rcases hsm with he | hn
    · subst he
      simp [mapLoopStep, defaultFill, Table.setScalar]
    · simp [mapLoopStep, hn, defaultFill, Table.setScalar]

/-- C8 counterexample.  The claim quantifies over every raw table and column
mapping.  Map both sku and qty to the same absent source column Z: the
target_cols dict literal keeps one entry for key Z (value qty, the later
insertion), so the canonical sku column is never created at all -- the
normalized table has no sku column, rather than the placeholder the claim
promises when the sku source is missing. -/
theorem normalizer_sku_collision_counterexample :
    (collisionMap.sku = some "Z") ∧ (collisionMap.qty = some "Z") ∧
    ("Z" ∉ collisionRaw.names) ∧
    ("sku" ∉ (runConversions collisionRaw collisionMap sampleAssumptions).names) :=
  ⟨rfl, rfl, by decide, of_decide_eq_true (by with_unfolding_all rfl)⟩

/-- C8 amended.  The Normalizer raises no error (every branch of the
embedding is total, mirroring to_numeric(errors='coerce').fillna which never
throws): for every raw table and mapping, each canonical numeric column of
the normalized table is the cell-wise numeric coercion of the post-mapping
column, a coercion that sends every non-numeric or missing cell to 0; and
provided the sku mapping key is not shared with another canonical field
(dict-literal key collapse), a missing/unmapped sku source yields the
constant placeholder column 'Unknown-SKU'.  Without that proviso the claim
fails (see the counterexample): a collapsed-away sku produces no sku column
at all. -/
theorem normalizer_zero_fill_and_sku_placeholder (df : Table) (m : Mappings)
    (a : Assumptions) :
    (∀ c ∈ numericCanon, (runConversions df m a).getCol c
        = ((mapLoop df m).getCol c).map (fun v => Value.num v.toQ)) ∧
    (∀ s : String, (Value.str s).toQ = 0) ∧ (Value.na.toQ = 0) ∧
    (skuKeyUnique m → skuSourceMissing m df →
      (runConversions df m a).getCol "sku"
        = List.replicate df.nrows (Value.str "Unknown-SKU")) := by
  refine ⟨?_, fun s => rfl, rfl, sku_default_of_unique_missing df m a⟩
  intro c hc
  unfold runConversions
  rw [getCol_convSteps_canon _ _ _ hc, getCol_enforceNumeric_canon _ _ hc]

/-- C8 witness: on a concrete raw table, the qty column of the normalized
output is the numeric coercion of its mapped column, and with a
collision-free mapping whose sku source S is absent the sku column is the
placeholder. -/
theorem normalizer_zero_fill_and_sku_placeholder_witness :
    ((runConversions collisionRaw missSkuMap sampleAssumptions).getCol "qty"
      = ((mapLoop collisionRaw missSkuMap).getCol "qty").map (fun v => Value.num v.toQ)) ∧
    ((runConversions collisionRaw missSkuMap sampleAssumptions).getCol "sku"
      = List.replicate collisionRaw.nrows (Value.str "Unknown-SKU")) :=
  ⟨(normalizer_zero_fill_and_sku_placeholder collisionRaw missSkuMap sampleAssumptions).1
      "qty" (by decide),
   (normalizer_zero_fill_and_sku_placeholder collisionRaw missSkuMap sampleAssumptions).2.2.2
      (by decide) (by decide)⟩

/-- C10.  The per-row referral override is read only from a column literally
named walmart_referral_pct in the raw input: for every mapping, the pipeline
never writes that name (the mapping can only populate the fixed canonical
internal names), the column's raw cell values survive all three passes
unchanged (in particular the Normalizer does not numeric-coerce them), it is
present in the output exactly when present in the raw table, and when the
raw table lacks it every row's referral fee is
selling_price x default_referral_pct/100 regardless of the mapping. -/
theorem referral_override_column_isolation (df : Table) (m : Mappings) (a : Assumptions) :
    (("walmart_referral_pct" ∈ (fullRun df m a).names) ↔ "walmart_referral_pct" ∈ df.names) ∧
    ((fullRun df m a).getCol "walmart_referral_pct" = df.getCol "walmart_referral_pct") ∧
    ("walmart_referral_pct" ∉ df.names →
      (fullRun df m a).numCol "referral_fee"
        = ((fullRun df m a).numCol "selling_price").map
            (· * (a.default_referral_pct / 100))) := by
  refine ⟨?_, ?_, ?_⟩
  · unfold fullRun runConversions
    rw [mem_names_econ_wrp, mem_names_landed_wrp, mem_names_convSteps_wrp,
      mem_names_enforceNumeric_wrp, mem_names_mapLoop_wrp]
  · unfold fullRun runConversions
    rw [getCol_econ_wrp, getCol_landed_wrp, getCol_convSteps_wrp,
      getCol_enforceNumeric_wrp, getCol_mapLoop_wrp]
  · intro h
    unfold fullRun
    have h3 : "walmart_referral_pct"
        ∉ (calculateLandedCost (runConversions df m a) a).names := by
      unfold runConversions
      rw [mem_names_landed_wrp, mem_names_convSteps_wrp, mem_names_enforceNumeric_wrp,
        mem_names_mapLoop_wrp]
      exact h
    have hc : ¬("walmart_referral_pct"
          ∈ (calculateLandedCost (runConversions df m a) a).names
        ∧ 0 < ((calculateLandedCost (runConversions df m a) a).numCol
            "walmart_referral_pct").sum) := fun hh => h3 hh.1
    simp [calculateWalmartEconomics, hc]

/-- C10 witness: the sample raw table has no walmart_referral_pct column;
after the full run the output still has none, the (absent) column reads the
same, and the referral fee column is the default-rate fee on every row. -/
theorem referral_override_column_isolation_witness :
    (("walmart_referral_pct" ∈ (fullRun sampleRaw sampleMap sampleAssumptions).names)
      ↔ "walmart_referral_pct" ∈ sampleRaw.names) ∧
    ((fullRun sampleRaw sampleMap sampleAssumptions).getCol "walmart_referral_pct"
      = sampleRaw.getCol "walmart_referral_pct") ∧
    ((fullRun sampleRaw sampleMap sampleAssumptions).numCol "referral_fee"
      = ((fullRun sampleRaw sampleMap sampleAssumptions).numCol "selling_price").map
          (· * (sampleAssumptions.default_referral_pct / 100))) :=
  ⟨(referral_override_column_isolation sampleRaw sampleMap sampleAssumptions).1,
   (referral_override_column_isolation sampleRaw sampleMap sampleAssumptions).2.1,
   (referral_override_column_isolation sampleRaw sampleMap sampleAssumptions).2.2
      (by decide)⟩

end WCalc
